import Mathlib

/-!
Shallow embedding of `pytorch_lightning/utilities/cli.py` (the early
`LightningCLI` module): `LightningArgumentParser`, `SaveConfigCallback`,
and the `LightningCLI` assembly pipeline.  Python dictionaries are
modelled as association lists from `String` keys, Python `None` as an
explicit sentinel, exceptions as `Except String`, and the external
collaborators (jsonargparse, the Trainer, the user's model and
datamodule classes) as explicit function parameters or, where the spec
is the only available description, as definitions marked
`Modelled from the spec:`.
-/

namespace PLCli

/-- Primitive configuration values as they appear in a parsed
configuration tree: Python `None`, numbers and strings. -/
inductive Prim where
  | null : Prim
  | nat : Nat → Prim
  | str : String → Prim
  deriving DecidableEq, Repr

/-- One namespace of the configuration tree: parameter name to value,
e.g. the contents of `config['model']`. -/
abbrev ConfigNS := List (String × Prim)

/-- The configuration tree produced by `parse_args`: namespace key
(`trainer`, `model`, `data`) to namespace contents. -/
abbrev ConfigTree := List (String × ConfigNS)

/-- Lookup in an association list, as Python `d[k]` / `d.get(k)`. -/
def alookup {α : Type} : List (String × α) → String → Option α
  | [], _ => none
  | (k0, v0) :: rest, k => if k0 = k then some v0 else alookup rest k

/-- Setting a key in an association list, as Python `d[k] = v`:
replaces the value in place if the key exists, appends otherwise. -/
def aset {α : Type} : List (String × α) → String → α → List (String × α)
  | [], k, v => [(k, v)]
  | (k0, v0) :: rest, k, v =>
    if k0 = k then (k0, v) :: rest else (k0, v0) :: aset rest k v

/-- Python `d.update(u)`: every key of `u` is set into `d`. -/
def aupdate {α : Type} (d u : List (String × α)) : List (String × α) :=
  u.foldl (fun acc q => aset acc q.1 q.2) d

/-- Python `config.get(key, {})` on the configuration tree. -/
def nsGet (c : ConfigTree) (k : String) : ConfigNS :=
  (alookup c k).getD []

/-- State of a `LightningArgumentParser`: the set of registered option
names.  `LightningArgumentParser.__init__` adds the reserved `--config`
option, so a fresh parser already holds `config`. -/
structure ParserState where
  options : List String
  deriving DecidableEq, Repr

/-- A freshly constructed `LightningArgumentParser` (its `__init__`
registered the `--config` option). -/
def initParser : ParserState := ⟨["config"]⟩

/-- A `SaveConfigCallback` instance: `__init__` stores the parser and
the configuration it was constructed with. -/
structure SaveConfigCallback where
  parser : ParserState
  config : ConfigTree
  deriving DecidableEq, Repr

/-- A callback object in a callbacks list: either a caller-supplied
callback (identified by a number) or a `SaveConfigCallback` instance. -/
inductive CB where
  | user : Nat → CB
  | save : SaveConfigCallback → CB
  deriving DecidableEq, Repr

/-- A value stored in the `trainer_kwargs` dictionary: either a
primitive configuration value or a list of callback objects. -/
inductive KwVal where
  | prim : Prim → KwVal
  | callbacks : List CB → KwVal
  deriving DecidableEq, Repr

/-- Python `d.get('callbacks') is None`: true when the key is absent or
its value is `None`. -/
def isNoneVal : Option KwVal → Bool
  | none => true
  | some (KwVal.prim Prim.null) => true
  | some _ => false

/-- Whether a kwargs value is a callbacks list. -/
def isCallbacksList : KwVal → Bool
  | KwVal.callbacks _ => true
  | _ => false

/-- Descriptor of a Python class as the registrar sees it: which base
capabilities it subclasses, and its constructor parameters (name and
optional default) excluding `self`. -/
structure PyClass where
  isTrainer : Bool
  isModule : Bool
  isDataModule : Bool
  params : List (String × Option Prim)
  deriving DecidableEq, Repr

/-- Modelled from the spec: jsonargparse's `add_class_arguments` (the
argument-parsing library is not part of src/) registers one option per
constructor parameter, excluding `self`, under `nested_key.param`,
inferring type and default from the signature. -/
def add_class_arguments (p : ParserState) (cls : PyClass) (nested_key : String) : ParserState :=
  ⟨p.options ++ cls.params.map (fun q => nested_key ++ "." ++ q.1)⟩

/-- `LightningArgumentParser.add_trainer_args`: asserts the class is a
`Trainer` subclass, then registers its constructor arguments. -/
def add_trainer_args (p : ParserState) (trainer_class : PyClass)
    (nested_key : String := "trainer") : Except String ParserState :=
  if trainer_class.isTrainer then Except.ok (add_class_arguments p trainer_class nested_key)
  else Except.error "TypeMismatch"

/-- `LightningArgumentParser.add_module_args`: asserts the class is a
`LightningModule` subclass, then registers its constructor arguments.
The source's default nested key is `module`. -/
def add_module_args (p : ParserState) (module_class : PyClass)
    (nested_key : String := "module") : Except String ParserState :=
  if module_class.isModule then Except.ok (add_class_arguments p module_class nested_key)
  else Except.error "TypeMismatch"

/-- `LightningArgumentParser.add_datamodule_args`: asserts the class is
a `LightningDataModule` subclass, then registers its constructor
arguments. -/
def add_datamodule_args (p : ParserState) (datamodule_class : PyClass)
    (nested_key : String := "data") : Except String ParserState :=
  if datamodule_class.isDataModule then Except.ok (add_class_arguments p datamodule_class nested_key)
  else Except.error "TypeMismatch"

/-- `LightningCLI.add_core_arguments_to_parser`: registers trainer
arguments under `trainer`, module arguments under `model`, and, when a
datamodule class is given, datamodule arguments under `data`. -/
def addCoreArgumentsToParser (p : ParserState) (trainer_class model_class : PyClass)
    (datamodule_class : Option PyClass) : Except String ParserState :=
  match add_trainer_args p trainer_class "trainer" with
  | Except.error e => Except.error e
  | Except.ok p1 =>
    match add_module_args p1 model_class "model" with
    | Except.error e => Except.error e
    | Except.ok p2 =>
      match datamodule_class with
      | none => Except.ok p2
      | some dc => add_datamodule_args p2 dc "data"

/-- Settings that `LightningCLI.init_parser` passes to the
`LightningArgumentParser` constructor. -/
structure ParserSettings where
  description : String
  default_config_files : Option (List String)
  default_env : Bool
  envVarPfx : String
  deriving DecidableEq, Repr

/-- `LightningCLI.init_parser`: builds the parser with the given
description, default config files, `default_env = parse_env` and the
fixed environment prefix `PL`. -/
def initParserSettings (description : String) (default_config_files : Option (List String))
    (parse_env : Bool) : ParserSettings :=
  { description := description
    default_config_files := default_config_files
    default_env := parse_env
    envVarPfx := "PL" }

/-- Modelled from the spec: jsonargparse's parse operation (not in
src/) resolves each registered option in priority order
CLI > environment > config-file > built-in default, the environment
source being consulted only when environment parsing is enabled. -/
def resolveOption (envEnabled : Bool) (cli envv file : Option Prim) (dflt : Prim) : Prim :=
  match cli with
  | some v => v
  | none =>
    match (if envEnabled then envv else none) with
    | some v => v
    | none =>
      match file with
      | some v => v
      | none => dflt

/-- Modelled from the spec: the parser's `save` operation (not in src/)
serializes a configuration tree, omitting keys whose value is the
`None` sentinel exactly when `skip_none` is true. -/
def parserSave (cfg : ConfigTree) (skip_none : Bool) : ConfigTree :=
  if skip_none then cfg.map (fun q => (q.1, q.2.filter (fun r => r.2 ≠ Prim.null))) else cfg

/-- The file written by `SaveConfigCallback.on_train_start`: its path
and serialized contents. -/
structure SavedFile where
  path : String
  contents : ConfigTree
  deriving DecidableEq, Repr

/-- `SaveConfigCallback.on_train_start`: joins the trainer's log
directory with `config.yaml` and saves the stored configuration via the
parser's save operation with `skip_none=False`. -/
def SaveConfigCallback.on_train_start (cb : SaveConfigCallback) (log_dir : String) : SavedFile :=
  { path := log_dir ++ "/config.yaml"
    contents := parserSave cb.config false }

/-- The `self.trainer_kwargs.update(self.config_init['trainer'])` step
of `LightningCLI.instantiate_trainer`: configuration values are set
over the construction-time keyword arguments. -/
def updatedKwargs (kw : List (String × KwVal)) (cfg : ConfigNS) : List (String × KwVal) :=
  aupdate kw (cfg.map (fun q => (q.1, KwVal.prim q.2)))

/-- The `if self.trainer_kwargs.get('callbacks') is None` step of
`LightningCLI.instantiate_trainer`: a missing or `None` callbacks value
is replaced by an empty list. -/
def normalizeCallbacks (kw : List (String × KwVal)) : List (String × KwVal) :=
  if isNoneVal (alookup kw "callbacks") then aset kw "callbacks" (KwVal.callbacks []) else kw

/-- The keyword arguments that `LightningCLI.instantiate_trainer`
passes to `self.trainer_class`: update with `config_init['trainer']`,
replace a missing or `None` callbacks value by `[]`, and, when a save
config callback class is configured, append one instance of it built
from the parser and the configuration `c`; appending onto a
non-list callbacks value raises (AttributeError), modelled as an
error. -/
def computeTrainerKwargs (kw : List (String × KwVal)) (cfg : ConfigNS)
    (saveCls : Option (ParserState → ConfigTree → SaveConfigCallback))
    (p : ParserState) (c : ConfigTree) : Except String (List (String × KwVal)) :=
  match saveCls with
  | none => Except.ok (normalizeCallbacks (updatedKwargs kw cfg))
  | some cls =>
    match alookup (normalizeCallbacks (updatedKwargs kw cfg)) "callbacks" with
    | some (KwVal.callbacks cs) =>
        Except.ok (aset (normalizeCallbacks (updatedKwargs kw cfg)) "callbacks"
          (KwVal.callbacks (cs ++ [CB.save (cls p c)])))
    | _ => Except.error "AttributeError: callbacks value does not support append"

/-- An instantiated model object: records the keyword arguments it was
constructed from. -/
structure Model where
  hparams : ConfigNS
  deriving DecidableEq, Repr

/-- An instantiated datamodule object: records the keyword arguments it
was constructed from. -/
structure DataModule where
  hparams : ConfigNS
  deriving DecidableEq, Repr

/-- An instantiated trainer object: the keyword arguments it was
constructed with and the behavior of its `fit` operation on a model and
optional datamodule. -/
structure TrainerObj where
  kwargs : List (String × KwVal)
  fit : Model → Option DataModule → Except String Nat

/-- Everything produced by `LightningCLI.instantiate_classes`. -/
structure InstResult where
  config_init : ConfigTree
  model : Model
  datamodule : Option DataModule
  trainerKwargs : List (String × KwVal)
  trainer : TrainerObj

/-- Inputs of one `LightningCLI` invocation: the class descriptors used
for registration, the external constructors (calling a Python class is
an opaque operation that may raise), the save-config callback class,
the construction-time trainer keyword arguments, the outcome of
`parse_args`, and jsonargparse's `instantiate_subclasses` expansion. -/
structure CLIInput where
  trainer_cls : PyClass
  model_cls : PyClass
  datamodule_cls : Option PyClass
  save_config_callback : Option (ParserState → ConfigTree → SaveConfigCallback)
  trainer_kwargs : List (String × KwVal)
  parse_result : Except String ConfigTree
  inst_subclasses : ConfigTree → ConfigTree
  model_ctor : ConfigNS → Except String Model
  datamodule_ctor : ConfigNS → Except String DataModule
  trainer_ctor : List (String × KwVal) → Except String TrainerObj

/-- `LightningCLI.instantiate_classes`: expand subclass selections into
`config_init`, construct the model from `config_init.get('model', {})`,
construct the datamodule (when a datamodule class was given) from
`config_init.get('data', {})`, then build the trainer keyword arguments
from `config_init['trainer']` (a missing `trainer` key raises KeyError)
and construct the trainer.  Any failure propagates unmodified. -/
def instantiateStage (inp : CLIInput) (p : ParserState) (cfg : ConfigTree) :
    Except String InstResult :=
  match inp.model_ctor (nsGet (inp.inst_subclasses cfg) "model") with
  | Except.error e => Except.error e
  | Except.ok model =>
    match (match inp.datamodule_cls with
           | none => (Except.ok none : Except String (Option DataModule))
           | some _ => Except.map some (inp.datamodule_ctor (nsGet (inp.inst_subclasses cfg) "data"))) with
    | Except.error e => Except.error e
    | Except.ok dm =>
      match alookup (inp.inst_subclasses cfg) "trainer" with
      | none => Except.error "KeyError: trainer"
      | some cfgTrainer =>
        match computeTrainerKwargs inp.trainer_kwargs cfgTrainer inp.save_config_callback p cfg with
        | Except.error e => Except.error e
        | Except.ok tkw =>
          match inp.trainer_ctor tkw with
          | Except.error e => Except.error e
          | Except.ok tobj =>
            Except.ok { config_init := inp.inst_subclasses cfg
                        model := model
                        datamodule := dm
                        trainerKwargs := tkw
                        trainer := tobj }

/-- The steps of the `LightningCLI.__init__` pipeline, in source
order. -/
inductive Step where
  | initParserStep
  | addArgumentsToParserStep
  | addCoreArgumentsStep
  | beforeParseStep
  | parseArgumentsStep
  | beforeInstantiateStep
  | instantiateClassesStep
  | beforeFitStep
  | fitStep
  | afterFitStep
  deriving DecidableEq, Repr

/-- Trace recorded when the pipeline aborts during registration. -/
def traceReg : List Step :=
  [Step.initParserStep, Step.addArgumentsToParserStep, Step.addCoreArgumentsStep]

/-- Trace recorded when the pipeline aborts during parsing. -/
def traceParse : List Step := traceReg ++ [Step.beforeParseStep, Step.parseArgumentsStep]

/-- Trace recorded when the pipeline aborts during instantiation. -/
def traceInst : List Step := traceParse ++ [Step.beforeInstantiateStep, Step.instantiateClassesStep]

/-- Trace recorded when the pipeline aborts during fit. -/
def traceFit : List Step := traceInst ++ [Step.beforeFitStep, Step.fitStep]

/-- Trace of a complete pipeline run. -/
def traceFull : List Step := traceFit ++ [Step.afterFitStep]

/-- The final state of a successful `LightningCLI` invocation. -/
structure PipeOutcome where
  parser : ParserState
  config : ConfigTree
  config_init : ConfigTree
  model : Model
  datamodule : Option DataModule
  trainerKwargs : List (String × KwVal)
  fit_result : Nat

/-- `LightningCLI.__init__`: the end-to-end pipeline.  Each step is
recorded in the trace when it starts; an exception anywhere aborts the
remaining steps and surfaces the error unmodified.  The extension-point
hooks (`add_arguments_to_parser`, `before_parse_arguments`,
`before_instantiate_classes`, `before_fit`, `after_fit`) are the base
class's no-op implementations. -/
def runPipeline (inp : CLIInput) : List Step × Except String PipeOutcome :=
  match addCoreArgumentsToParser initParser inp.trainer_cls inp.model_cls inp.datamodule_cls with
  | Except.error e => (traceReg, Except.error e)
  | Except.ok parser =>
    match inp.parse_result with
    | Except.error e => (traceParse, Except.error e)
    | Except.ok config =>
      match instantiateStage inp parser config with
      | Except.error e => (traceInst, Except.error e)
      | Except.ok inst =>
        match inst.trainer.fit inst.model inst.datamodule with
        | Except.error e => (traceFit, Except.error e)
        | Except.ok n =>
          (traceFull, Except.ok { parser := parser
                                  config := config
                                  config_init := inst.config_init
                                  model := inst.model
                                  datamodule := inst.datamodule
                                  trainerKwargs := inst.trainerKwargs
                                  fit_result := n })

/-- A concrete parsed configuration used by the witnesses. -/
def sampleConfig : ConfigTree :=
  [("trainer", [("max_epochs", Prim.nat 1)]), ("model", [("lr", Prim.nat 3)])]

/-- A concrete successful pipeline input used by the witnesses: a model
class requiring `lr`, a trainer with `max_epochs`, the default save
config callback class, and a subclass expansion that modifies the tree
(so the post-instantiation configuration differs from the raw one). -/
def sampleInput : CLIInput :=
  { trainer_cls := ⟨true, false, false, [("max_epochs", some (Prim.nat 10)), ("callbacks", some Prim.null)]⟩
    model_cls := ⟨false, true, false, [("lr", none)]⟩
    datamodule_cls := none
    save_config_callback := some SaveConfigCallback.mk
    trainer_kwargs := []
    parse_result := Except.ok sampleConfig
    inst_subclasses := fun c => aset c "extra" []
    model_ctor := fun ns =>
      if (alookup ns "lr").isSome then Except.ok ⟨ns⟩ else Except.error "ConstructionError: lr"
    datamodule_ctor := fun ns => Except.ok ⟨ns⟩
    trainer_ctor := fun kw => Except.ok ⟨kw, fun _ _ => Except.ok 0⟩ }

/-- The parser state after registering the sample classes. -/
def sampleParser : ParserState :=
  ⟨["config", "trainer.max_epochs", "trainer.callbacks", "model.lr"]⟩

/-- The outcome of running the pipeline on `sampleInput`. -/
def sampleOut : PipeOutcome :=
  { parser := sampleParser
    config := sampleConfig
    config_init := sampleConfig ++ [("extra", [])]
    model := ⟨[("lr", Prim.nat 3)]⟩
    datamodule := none
    trainerKwargs := [("max_epochs", KwVal.prim (Prim.nat 1)),
                      ("callbacks", KwVal.callbacks [CB.save ⟨sampleParser, sampleConfig⟩])]
    fit_result := 0 }

/-- A pipeline input whose parsed configuration supplies no value for
the required model argument `lr`: model construction fails. -/
def sampleFailInput : CLIInput :=
  { sampleInput with parse_result := Except.ok [("trainer", [("max_epochs", Prim.nat 1)]), ("model", [])] }

/-- A concrete `SaveConfigCallback` whose stored configuration holds a
key with the `None` sentinel. -/
def sampleCallback : SaveConfigCallback := ⟨initParser, [("model", [("lr", Prim.null)])]⟩

lemma alookup_aset_self {α : Type} (d : List (String × α)) (k : String) (v : α) :
    alookup (aset d k v) k = some v := by
  induction d with
  | nil => simp [aset, alookup]
  | cons q rest ih =>
    obtain ⟨k0, v0⟩ := q
    by_cases h : k0 = k
    · simp [aset, alookup, h]
    · simp [aset, alookup, h, ih]

lemma alookup_aset_ne {α : Type} (d : List (String × α)) (k k' : String) (v : α)
    (h : k' ≠ k) : alookup (aset d k v) k' = alookup d k' := by
  induction d with
  | nil => simp [aset, alookup, if_neg (Ne.symm h)]
  | cons q rest ih =>
    obtain ⟨k0, v0⟩ := q
    by_cases hq : k0 = k
    · subst hq
      simp [aset, alookup, if_neg (Ne.symm h)]
    · simp [aset, alookup, hq, ih]

lemma aupdate_nil {α : Type} (d : List (String × α)) : aupdate d [] = d := rfl

lemma aupdate_cons {α : Type} (d : List (String × α)) (k0 : String) (v0 : α)
    (rest : List (String × α)) :
    aupdate d ((k0, v0) :: rest) = aupdate (aset d k0 v0) rest := rfl

lemma alookup_aupdate_not_mem {α : Type} (u d : List (String × α)) (k : String)
    (h : k ∉ u.map Prod.fst) : alookup (aupdate d u) k = alookup d k := by
  induction u generalizing d with
  | nil => rfl
  | cons q rest ih =>
    obtain ⟨k0, v0⟩ := q
    simp only [List.map_cons, List.mem_cons] at h
    push_neg at h
    rw [aupdate_cons, ih _ h.2]
    exact alookup_aset_ne _ _ _ _ h.1

lemma alookup_aupdate_mem {α : Type} (u : List (String × α)) (k : String) (v : α) :
    ∀ d : List (String × α), (u.map Prod.fst).Nodup → alookup u k = some v →
      alookup (aupdate d u) k = some v := by
  induction u with
  | nil => intro d _ h; simp [alookup] at h
  | cons q rest ih =>
    obtain ⟨k0, v0⟩ := q
    intro d hnod h
    rw [aupdate_cons]
    simp only [List.map_cons, List.nodup_cons] at hnod
    by_cases hq : k0 = k
    · subst hq
      simp only [alookup, if_pos rfl] at h
      rw [alookup_aupdate_not_mem rest _ k0 hnod.1, ← Option.some.inj h]
      exact alookup_aset_self d k0 v0
    · simp only [alookup, if_neg hq] at h
      exact ih (aset d k0 v0) hnod.2 h

lemma alookup_map_val {α β : Type} (f : α → β) (d : List (String × α)) (k : String) :
    alookup (d.map (fun q => (q.1, f q.2))) k = (alookup d k).map f := by
  induction d with
  | nil => rfl
  | cons q rest ih =>
    obtain ⟨k0, v0⟩ := q
    by_cases h : k0 = k <;> simp [alookup, h, ih]

lemma alookup_updatedKwargs_mem (kw : List (String × KwVal)) (cfg : ConfigNS)
    (k : String) (v : Prim) (hnod : (cfg.map Prod.fst).Nodup) (hk : alookup cfg k = some v) :
    alookup (updatedKwargs kw cfg) k = some (KwVal.prim v) := by
  unfold updatedKwargs
  apply alookup_aupdate_mem
  · simpa [List.map_map, Function.comp] using hnod
  · rw [alookup_map_val, hk]
    rfl

lemma alookup_normalizeCallbacks_ne (kw : List (String × KwVal)) (k : String)
    (h : k ≠ "callbacks") : alookup (normalizeCallbacks kw) k = alookup kw k := by
  unfold normalizeCallbacks
  split
  · exact alookup_aset_ne _ _ _ _ h
  · rfl

lemma isNoneVal_false (o : Option KwVal) (h : isNoneVal o = false) :
    ∃ v, o = some v ∧ v ≠ KwVal.prim Prim.null := by
  match o with
  | none => simp [isNoneVal] at h
  | some (KwVal.prim Prim.null) => simp [isNoneVal] at h
  | some (KwVal.prim (Prim.nat n)) => exact ⟨_, rfl, by simp⟩
  | some (KwVal.prim (Prim.str s)) => exact ⟨_, rfl, by simp⟩
  | some (KwVal.callbacks cs) => exact ⟨_, rfl, by simp⟩

lemma normalizeCallbacks_of_isNone (kw : List (String × KwVal))
    (h : isNoneVal (alookup kw "callbacks") = true) :
    normalizeCallbacks kw = aset kw "callbacks" (KwVal.callbacks []) := by
  unfold normalizeCallbacks
  rw [if_pos h]

lemma normalizeCallbacks_of_not_isNone (kw : List (String × KwVal))
    (h : isNoneVal (alookup kw "callbacks") = false) :
    normalizeCallbacks kw = kw := by
  unfold normalizeCallbacks
  rw [h]
  simp

lemma computeTrainerKwargs_none (kw : List (String × KwVal)) (cfg : ConfigNS)
    (p : ParserState) (c : ConfigTree) :
    computeTrainerKwargs kw cfg none p c = Except.ok (normalizeCallbacks (updatedKwargs kw cfg)) := rfl

lemma computeTrainerKwargs_some_append (kw : List (String × KwVal)) (cfg : ConfigNS)
    (cls : ParserState → ConfigTree → SaveConfigCallback) (p : ParserState) (c : ConfigTree)
    (result : List (String × KwVal))
    (h : computeTrainerKwargs kw cfg (some cls) p c = Except.ok result) :
    ∃ cs, alookup (normalizeCallbacks (updatedKwargs kw cfg)) "callbacks"
            = some (KwVal.callbacks cs) ∧
          result = aset (normalizeCallbacks (updatedKwargs kw cfg)) "callbacks"
            (KwVal.callbacks (cs ++ [CB.save (cls p c)])) := by
  simp only [computeTrainerKwargs] at h
  split at h
  · next cs heq => exact ⟨cs, heq, (Except.ok.inj h).symm⟩
  · exact absurd h (by simp)

lemma runPipeline_ok (inp : CLIInput) (tr : List Step) (out : PipeOutcome)
    (h : runPipeline inp = (tr, Except.ok out)) :
    ∃ p cfg inst n,
      addCoreArgumentsToParser initParser inp.trainer_cls inp.model_cls inp.datamodule_cls
        = Except.ok p ∧
      inp.parse_result = Except.ok cfg ∧
      instantiateStage inp p cfg = Except.ok inst ∧
      inst.trainer.fit inst.model inst.datamodule = Except.ok n ∧
      tr = traceFull ∧
      out = { parser := p, config := cfg, config_init := inst.config_init, model := inst.model,
              datamodule := inst.datamodule, trainerKwargs := inst.trainerKwargs,
              fit_result := n } := by
  unfold runPipeline at h
  split at h
  · simp at h
  · next p hp =>
    split at h
    · simp at h
    · next cfg hcfg =>
      split at h
      · simp at h
      · next inst hinst =>
        split at h
        · simp at h
        · next n hn =>
          rw [Prod.mk.injEq] at h
          exact ⟨p, cfg, inst, n, hp, hcfg, hinst, hn, h.1.symm, (Except.ok.inj h.2).symm⟩

lemma instantiateStage_ok (inp : CLIInput) (p : ParserState) (cfg : ConfigTree)
    (inst : InstResult) (h : instantiateStage inp p cfg = Except.ok inst) :
    inst.config_init = inp.inst_subclasses cfg ∧
    ∃ cfgTrainer,
      alookup (inp.inst_subclasses cfg) "trainer" = some cfgTrainer ∧
      computeTrainerKwargs inp.trainer_kwargs cfgTrainer inp.save_config_callback p cfg
        = Except.ok inst.trainerKwargs := by
  unfold instantiateStage at h
  split at h
  · simp at h
  · next model hmodel =>
    split at h
    · simp at h
    · next dm hdm =>
      split at h
      · simp at h
      · next cfgTrainer hT =>
        split at h
        · simp at h
        · next tkw htkw =>
          split at h
          · simp at h
          · next tobj htobj =>
            have h' := Except.ok.inj h
            refine ⟨?_, cfgTrainer, hT, ?_⟩
            · rw [← h']
            · rw [← h']
              exact htkw

/-- Claim C1, counterexample: with a caller-supplied explicit callbacks
list `[CB.user 1]` and the default save-config callback class
configured, `instantiate_trainer` still appends a `SaveConfigCallback`
instance, contradicting "when the caller did supply an explicit
observer list, no instance is appended". -/
theorem C1_counterexample :
    computeTrainerKwargs [("callbacks", KwVal.callbacks [CB.user 1])] []
      (some SaveConfigCallback.mk) initParser []
      = Except.ok [("callbacks", KwVal.callbacks [CB.user 1, CB.save ⟨initParser, []⟩])] := rfl

/-- Claim C1, amended: a `SaveConfigCallback` instance is appended to
the callbacks list whenever a save-config callback class is configured,
regardless of whether the caller supplied an explicit callbacks list;
when no class is configured nothing is appended and the result is just
the updated, normalized keyword arguments. -/
theorem C1_append_regardless (kw : List (String × KwVal)) (cfg : ConfigNS)
    (saveCls : Option (ParserState → ConfigTree → SaveConfigCallback))
    (p : ParserState) (c : ConfigTree) (result : List (String × KwVal))
    (h : computeTrainerKwargs kw cfg saveCls p c = Except.ok result) :
    (saveCls = none → result = normalizeCallbacks (updatedKwargs kw cfg)) ∧
    (∀ cls, saveCls = some cls → ∃ cs,
      alookup (normalizeCallbacks (updatedKwargs kw cfg)) "callbacks"
        = some (KwVal.callbacks cs) ∧
      alookup result "callbacks" = some (KwVal.callbacks (cs ++ [CB.save (cls p c)]))) := by
  constructor
  · rintro rfl
    rw [computeTrainerKwargs_none] at h
    exact (Except.ok.inj h).symm
  · rintro cls rfl
    obtain ⟨cs, hcs, hres⟩ := computeTrainerKwargs_some_append kw cfg cls p c result h
    exact ⟨cs, hcs, by rw [hres]; exact alookup_aset_self _ _ _⟩

/-- Witness for C1: concrete run in which the caller supplied
`[CB.user 2]` and the appended instance lands at the end. -/
theorem C1_witness :
    ∃ cs,
      alookup (normalizeCallbacks (updatedKwargs [("callbacks", KwVal.callbacks [CB.user 2])] []))
        "callbacks" = some (KwVal.callbacks cs) ∧
      alookup [("callbacks", KwVal.callbacks [CB.user 2, CB.save ⟨initParser, []⟩])] "callbacks"
        = some (KwVal.callbacks (cs ++ [CB.save (SaveConfigCallback.mk initParser [])])) :=
  (C1_append_regardless [("callbacks", KwVal.callbacks [CB.user 2])] []
    (some SaveConfigCallback.mk) initParser []
    [("callbacks", KwVal.callbacks [CB.user 2, CB.save ⟨initParser, []⟩])] (by rfl)).2
    SaveConfigCallback.mk rfl

/-- Claim C2: when registration and parsing succeed but instantiating
the model, the datamodule, or the trainer fails, the pipeline's outcome
is exactly the construction error (surfaced unmodified) and the fit
step is never started. -/
theorem C2_abort_before_fit (inp : CLIInput) (p : ParserState) (cfg : ConfigTree) (e : String)
    (hreg : addCoreArgumentsToParser initParser inp.trainer_cls inp.model_cls inp.datamodule_cls
      = Except.ok p)
    (hparse : inp.parse_result = Except.ok cfg)
    (hfail : instantiateStage inp p cfg = Except.error e) :
    (runPipeline inp).2 = Except.error e ∧ Step.fitStep ∉ (runPipeline inp).1 := by
  have hrun : runPipeline inp = (traceInst, Except.error e) := by
    simp only [runPipeline, hreg, hparse, hfail]
  rw [hrun]
  refine ⟨rfl, ?_⟩
  show Step.fitStep ∉ traceInst
  decide

/-- Witness for C2: a model class requiring `lr` with no default, and a
parsed configuration supplying no value for `model.lr`, aborts with the
construction error and never reaches fit. -/
theorem C2_witness :
    (runPipeline sampleFailInput).2 = Except.error "ConstructionError: lr" ∧
    Step.fitStep ∉ (runPipeline sampleFailInput).1 :=
  C2_abort_before_fit sampleFailInput sampleParser
    [("trainer", [("max_epochs", Prim.nat 1)]), ("model", [])] "ConstructionError: lr"
    (by rfl) rfl (by rfl)

/-- Claim C3: each registrar operation fails with a TypeMismatch error
(and registers nothing) when the class is not a subtype of the expected
base capability, and otherwise registers exactly one option per
constructor parameter, named `nested_key.param`. -/
theorem C3_registrar (p : ParserState) (cls : PyClass) (key : String) :
    (cls.isTrainer = false → add_trainer_args p cls key = Except.error "TypeMismatch") ∧
    (cls.isTrainer = true → add_trainer_args p cls key =
      Except.ok ⟨p.options ++ cls.params.map (fun q => key ++ "." ++ q.1)⟩) ∧
    (cls.isModule = false → add_module_args p cls key = Except.error "TypeMismatch") ∧
    (cls.isModule = true → add_module_args p cls key =
      Except.ok ⟨p.options ++ cls.params.map (fun q => key ++ "." ++ q.1)⟩) ∧
    (cls.isDataModule = false → add_datamodule_args p cls key = Except.error "TypeMismatch") ∧
    (cls.isDataModule = true → add_datamodule_args p cls key =
      Except.ok ⟨p.options ++ cls.params.map (fun q => key ++ "." ++ q.1)⟩) := by
  refine ⟨fun h => ?_, fun h => ?_, fun h => ?_, fun h => ?_, fun h => ?_, fun h => ?_⟩ <;>
    simp [add_trainer_args, add_module_args, add_datamodule_args, add_class_arguments, h]

/-- Witness for C3: a `LightningModule`-only class is rejected by the
trainer registrar and accepted by the module registrar, which adds the
option `model.lr`. -/
theorem C3_witness :
    add_trainer_args initParser ⟨false, true, false, [("lr", none)]⟩ "trainer"
      = Except.error "TypeMismatch" ∧
    add_module_args initParser ⟨false, true, false, [("lr", none)]⟩ "model"
      = Except.ok ⟨["config", "model.lr"]⟩ :=
  ⟨(C3_registrar initParser ⟨false, true, false, [("lr", none)]⟩ "trainer").1 rfl,
   (C3_registrar initParser ⟨false, true, false, [("lr", none)]⟩ "model").2.2.2.1 rfl⟩

/-- Claim C4: `on_train_start` writes to `log_dir/config.yaml` via the
parser's save operation with `skip_none=False`, and the written tree is
the stored configuration itself, so every namespace key of the resolved
tree, including keys whose value is the `None` sentinel, is present in
the written file. -/
theorem C4_writes_full_config (cb : SaveConfigCallback) (log_dir : String) :
    (cb.on_train_start log_dir).path = log_dir ++ "/config.yaml" ∧
    (cb.on_train_start log_dir).contents = cb.config ∧
    (∀ ns m, alookup cb.config ns = some m → ∀ k v, alookup m k = some v →
      ∃ m', alookup (cb.on_train_start log_dir).contents ns = some m' ∧ alookup m' k = some v) := by
  refine ⟨rfl, rfl, ?_⟩
  intro ns m hm k v hv
  exact ⟨m, hm, hv⟩

/-- Witness for C4: a configuration holding `model.lr = None` is
written with that key present. -/
theorem C4_witness :
    ∃ m', alookup (sampleCallback.on_train_start "logs").contents "model" = some m' ∧
          alookup m' "lr" = some Prim.null :=
  (C4_writes_full_config sampleCallback "logs").2.2 "model" [("lr", Prim.null)] rfl "lr" Prim.null rfl

/-- Claim C5: in a successful pipeline run with the default
`SaveConfigCallback` class, the instance appended to the trainer's
callbacks was constructed from the parser and the raw configuration
tree returned by `parse_args` (stored in `self.config`), not from the
post-instantiation `config_init` tree. -/
theorem C5_raw_config (inp : CLIInput) (cfg : ConfigTree) (tr : List Step) (out : PipeOutcome)
    (hsave : inp.save_config_callback = some SaveConfigCallback.mk)
    (hparse : inp.parse_result = Except.ok cfg)
    (hrun : runPipeline inp = (tr, Except.ok out)) :
    out.config = cfg ∧
    ∃ cs, alookup out.trainerKwargs "callbacks" =
      some (KwVal.callbacks (cs ++ [CB.save { parser := out.parser, config := cfg }])) := by
  obtain ⟨p, cfg', inst, n, hp, hcfg', hinst, hfit, htr, hout⟩ := runPipeline_ok inp tr out hrun
  rw [hparse] at hcfg'
  have hcc : cfg = cfg' := Except.ok.inj hcfg'
  subst hcc
  obtain ⟨hci, cfgT, hT, hctk⟩ := instantiateStage_ok inp p cfg inst hinst
  rw [hsave] at hctk
  obtain ⟨cs, hcs, hres⟩ := computeTrainerKwargs_some_append _ _ _ _ _ _ hctk
  subst hout
  refine ⟨rfl, cs, ?_⟩
  show alookup inst.trainerKwargs "callbacks" = _
  rw [hres]
  exact alookup_aset_self _ _ _

/-- Witness for C5: in the sample run the subclass expansion changes
the tree (`config_init` differs from the raw configuration), yet the
appended instance stores the raw configuration. -/
theorem C5_witness :
    (sampleOut.config = sampleConfig ∧
     ∃ cs, alookup sampleOut.trainerKwargs "callbacks" =
       some (KwVal.callbacks (cs ++ [CB.save { parser := sampleOut.parser, config := sampleConfig }]))) ∧
    sampleOut.config_init ≠ sampleConfig :=
  ⟨C5_raw_config sampleInput sampleConfig traceFull sampleOut rfl rfl (by rfl), by decide⟩

/-- Claim C6: every successful pipeline invocation executes exactly the
ten steps in the fixed source order; in particular registration comes
before parsing and instantiation before fit. -/
theorem C6_fixed_order (inp : CLIInput) (tr : List Step) (out : PipeOutcome)
    (hrun : runPipeline inp = (tr, Except.ok out)) :
    tr = [Step.initParserStep, Step.addArgumentsToParserStep, Step.addCoreArgumentsStep,
          Step.beforeParseStep, Step.parseArgumentsStep, Step.beforeInstantiateStep,
          Step.instantiateClassesStep, Step.beforeFitStep, Step.fitStep, Step.afterFitStep] ∧
    tr.indexOf Step.addCoreArgumentsStep < tr.indexOf Step.parseArgumentsStep ∧
    tr.indexOf Step.instantiateClassesStep < tr.indexOf Step.fitStep := by
  obtain ⟨p, cfg, inst, n, hp, hcfg, hinst, hfit, htr, hout⟩ := runPipeline_ok inp tr out hrun
  subst htr
  exact ⟨rfl, by decide, by decide⟩

/-- Witness for C6: the sample run produces the full ten-step trace in
order. -/
theorem C6_witness :
    traceFull = [Step.initParserStep, Step.addArgumentsToParserStep, Step.addCoreArgumentsStep,
      Step.beforeParseStep, Step.parseArgumentsStep, Step.beforeInstantiateStep,
      Step.instantiateClassesStep, Step.beforeFitStep, Step.fitStep, Step.afterFitStep] :=
  (C6_fixed_order sampleInput traceFull sampleOut (by rfl)).1

/-- Claim C7: option resolution follows the priority order
CLI over environment over config-file over built-in default, the
environment source being read only when environment parsing was enabled
at parser construction; in particular a CLI value of 5 beats an
environment value of 9. -/
theorem C7_priority (d : String) (f : Option (List String)) (envv file : Option Prim)
    (dflt v : Prim) :
    resolveOption (initParserSettings d f true).default_env (some v) envv file dflt = v ∧
    (∀ w, resolveOption true none (some w) file dflt = w) ∧
    (∀ u, resolveOption true none none (some u) dflt = u) ∧
    resolveOption true none none none dflt = dflt ∧
    resolveOption (initParserSettings d f false).default_env none envv file dflt =
      resolveOption true none none file dflt ∧
    resolveOption true (some (Prim.nat 5)) (some (Prim.nat 9)) none Prim.null = Prim.nat 5 :=
  ⟨rfl, fun _ => rfl, fun _ => rfl, rfl, rfl, rfl⟩

/-- Claim C8, counterexample: the key `callbacks` appears both in the
caller's keyword arguments (an explicit list) and in the resolved
trainer configuration (as `None`); the value actually passed is the
empty list produced by normalization, not the configuration value
`None`. -/
theorem C8_counterexample :
    computeTrainerKwargs [("callbacks", KwVal.callbacks [CB.user 1])] [("callbacks", Prim.null)]
      none initParser [] = Except.ok [("callbacks", KwVal.callbacks [])] ∧
    alookup [("callbacks", Prim.null)] "callbacks" = some Prim.null ∧
    KwVal.callbacks ([] : List CB) ≠ KwVal.prim Prim.null :=
  ⟨rfl, rfl, by decide⟩

/-- Claim C8, amended: the dictionary update makes the resolved trainer
configuration win over the construction-time keyword arguments on every
collision, and for every key other than `callbacks` that updated value
is exactly the value passed to the trainer constructor; the `callbacks`
value is subsequently normalized, so it may differ. -/
theorem C8_config_wins (kw : List (String × KwVal)) (cfg : ConfigNS)
    (saveCls : Option (ParserState → ConfigTree → SaveConfigCallback))
    (p : ParserState) (c : ConfigTree) (k : String) (v : Prim)
    (result : List (String × KwVal))
    (hnod : (cfg.map Prod.fst).Nodup)
    (hk : alookup cfg k = some v)
    (h : computeTrainerKwargs kw cfg saveCls p c = Except.ok result) :
    alookup (updatedKwargs kw cfg) k = some (KwVal.prim v) ∧
    (k ≠ "callbacks" → alookup result k = some (KwVal.prim v)) := by
  have h1 := alookup_updatedKwargs_mem kw cfg k v hnod hk
  refine ⟨h1, fun hne => ?_⟩
  have h2 : alookup (normalizeCallbacks (updatedKwargs kw cfg)) k = some (KwVal.prim v) := by
    rw [alookup_normalizeCallbacks_ne _ _ hne]
    exact h1
  cases saveCls with
  | none =>
    rw [computeTrainerKwargs_none] at h
    rw [← Except.ok.inj h]
    exact h2
  | some cls =>
    obtain ⟨cs, hcs, hres⟩ := computeTrainerKwargs_some_append _ _ _ _ _ _ h
    rw [hres, alookup_aset_ne _ _ _ _ hne]
    exact h2

/-- Witness for C8: the caller's `max_epochs=5` collides with the
configuration's `max_epochs=1` and the configuration value is the one
passed through. -/
theorem C8_witness :
    alookup (updatedKwargs [("max_epochs", KwVal.prim (Prim.nat 5))] [("max_epochs", Prim.nat 1)])
      "max_epochs" = some (KwVal.prim (Prim.nat 1)) ∧
    alookup [("max_epochs", KwVal.prim (Prim.nat 1)), ("callbacks", KwVal.callbacks [])]
      "max_epochs" = some (KwVal.prim (Prim.nat 1)) := by
  have h := C8_config_wins [("max_epochs", KwVal.prim (Prim.nat 5))] [("max_epochs", Prim.nat 1)]
    none initParser [] "max_epochs" (Prim.nat 1)
    [("max_epochs", KwVal.prim (Prim.nat 1)), ("callbacks", KwVal.callbacks [])]
    (by decide) rfl (by rfl)
  exact ⟨h.1, h.2 (by decide)⟩

/-- Claim C9, counterexample: a caller-supplied non-None, non-list
`callbacks` value with no save-config callback class configured passes
through `instantiate_trainer` unchanged, so the trainer is constructed
with a `callbacks` value that is not a list. -/
theorem C9_counterexample :
    computeTrainerKwargs [("callbacks", KwVal.prim (Prim.nat 5))] [] none initParser []
      = Except.ok [("callbacks", KwVal.prim (Prim.nat 5))] ∧
    isCallbacksList (KwVal.prim (Prim.nat 5)) = false :=
  ⟨rfl, rfl⟩

/-- Claim C9, amended: whenever `instantiate_trainer` completes, the
`callbacks` key is present and its value is never `None`; a missing or
`None` value is replaced by an empty list even when no save-config
callback class is configured; and when one is configured the final
value is a list with exactly one instance of it appended as the last
element. -/
theorem C9_callbacks_invariant (kw : List (String × KwVal)) (cfg : ConfigNS)
    (saveCls : Option (ParserState → ConfigTree → SaveConfigCallback))
    (p : ParserState) (c : ConfigTree) (result : List (String × KwVal))
    (h : computeTrainerKwargs kw cfg saveCls p c = Except.ok result) :
    (∃ v, alookup result "callbacks" = some v ∧ v ≠ KwVal.prim Prim.null) ∧
    (saveCls = none → isNoneVal (alookup (updatedKwargs kw cfg) "callbacks") = true →
      alookup result "callbacks" = some (KwVal.callbacks [])) ∧
    (∀ cls, saveCls = some cls → ∃ cs,
      alookup result "callbacks" = some (KwVal.callbacks (cs ++ [CB.save (cls p c)]))) := by
  refine ⟨?_, ?_, ?_⟩
  · cases saveCls with
    | none =>
      rw [computeTrainerKwargs_none] at h
      rw [← Except.ok.inj h]
      by_cases hnn : isNoneVal (alookup (updatedKwargs kw cfg) "callbacks") = true
      · rw [normalizeCallbacks_of_isNone _ hnn, alookup_aset_self]
        exact ⟨_, rfl, by simp⟩
      · rw [normalizeCallbacks_of_not_isNone _ (Bool.not_eq_true _ ▸ hnn)]
        obtain ⟨v, hv, hvne⟩ := isNoneVal_false _ (Bool.not_eq_true _ ▸ hnn)
        exact ⟨v, hv, hvne⟩
    | some cls =>
      obtain ⟨cs, hcs, hres⟩ := computeTrainerKwargs_some_append _ _ _ _ _ _ h
      rw [hres, alookup_aset_self]
      exact ⟨_, rfl, by simp⟩
  · rintro rfl hnn
    rw [computeTrainerKwargs_none] at h
    rw [← Except.ok.inj h, normalizeCallbacks_of_isNone _ hnn]
    exact alookup_aset_self _ _ _
  · rintro cls rfl
    obtain ⟨cs, hcs, hres⟩ := computeTrainerKwargs_some_append _ _ _ _ _ _ h
    exact ⟨cs, by rw [hres]; exact alookup_aset_self _ _ _⟩

/-- Witness for C9: with no caller callbacks and the default class
configured, the final value is a list holding exactly the appended
instance, and it is not `None`. -/
theorem C9_witness :
    (∃ v, alookup [("callbacks", KwVal.callbacks [CB.save ⟨initParser, []⟩])] "callbacks"
       = some v ∧ v ≠ KwVal.prim Prim.null) ∧
    (∃ cs, alookup [("callbacks", KwVal.callbacks [CB.save ⟨initParser, []⟩])] "callbacks"
       = some (KwVal.callbacks (cs ++ [CB.save (SaveConfigCallback.mk initParser [])]))) := by
  have h := C9_callbacks_invariant [] [] (some SaveConfigCallback.mk) initParser []
    [("callbacks", KwVal.callbacks [CB.save ⟨initParser, []⟩])] (by rfl)
  exact ⟨h.1, h.2.2 SaveConfigCallback.mk rfl⟩

/-- Claim C10: calling `add_module_args` without an explicit nested key
registers the module's parameters under `module`, while the pipeline's
`add_core_arguments_to_parser` passes the key `model` explicitly,
producing the `model` namespace. -/
theorem C10_default_module_key (p : ParserState) (cls tcls : PyClass)
    (hm : cls.isModule = true) (ht : tcls.isTrainer = true) :
    add_module_args p cls
      = Except.ok ⟨p.options ++ cls.params.map (fun q => "module" ++ "." ++ q.1)⟩ ∧
    addCoreArgumentsToParser p tcls cls none =
      Except.ok ⟨(p.options ++ tcls.params.map (fun q => "trainer" ++ "." ++ q.1))
        ++ cls.params.map (fun q => "model" ++ "." ++ q.1)⟩ := by
  constructor
  · simp [add_module_args, add_class_arguments, hm]
  · simp [addCoreArgumentsToParser, add_trainer_args, add_module_args,
      add_class_arguments, hm, ht]

/-- Witness for C10: the sample module class lands under `module.lr`
with the default key, and under `model.lr` through the pipeline's core
registration. -/
theorem C10_witness :
    add_module_args initParser ⟨false, true, false, [("lr", none)]⟩
      = Except.ok ⟨["config", "module.lr"]⟩ ∧
    addCoreArgumentsToParser initParser
      ⟨true, false, false, [("max_epochs", some (Prim.nat 10)), ("callbacks", some Prim.null)]⟩
      ⟨false, true, false, [("lr", none)]⟩ none
      = Except.ok ⟨["config", "trainer.max_epochs", "trainer.callbacks", "model.lr"]⟩ :=
  C10_default_module_key initParser ⟨false, true, false, [("lr", none)]⟩
    ⟨true, false, false, [("max_epochs", some (Prim.nat 10)), ("callbacks", some Prim.null)]⟩
    rfl rfl

end PLCli
